import Mathlib

/-!
Verification of the achievement-tracking repository (scripts/badge_tracker.py,
scripts/badge_orchestrator.py, scripts/quickdraw_automation.py).

The Python code is shallowly embedded: each method of the tracker and the
orchestrator becomes an executable Lean definition over explicit inputs that
stand for the external collaborator (the hosted code service).  External calls
that can raise are represented by `Except` values or by boolean success flags;
a caught Python exception corresponds to taking the failure branch.
-/

namespace BadgeTracker

/-- One row of the `next_requirement` record built in
`BadgeTracker.get_badge_progress` (fields `tier`, `count`, `needed`). -/
structure NextReq where
  tier : String
  count : Nat
  needed : Nat
deriving DecidableEq, Repr

/-- One badge definition from the `self.badges` dictionary in
`BadgeTracker.__init__`: `description`, ordered `tiers` mapping (kept as an
association list in insertion order) and the `check_method` name. -/
structure BadgeDef where
  name : String
  description : String
  tiers : List (String × Nat)
  check_method : String
deriving DecidableEq, Repr

/-- The static badge catalogue, in the dictionary insertion order of
`BadgeTracker.__init__`. -/
def badges : List BadgeDef :=
  [ ⟨"Heart On Your Sleeve", "Submit a pull request that gets merged",
      [("Default", 1), ("Bronze", 2), ("Silver", 4), ("Gold", 8)], "count_merged_prs"⟩,
    ⟨"Open Sourcerer", "User had PRs merged in multiple public repositories",
      [("Default", 1), ("Bronze", 2), ("Silver", 3), ("Gold", 4)], "count_repos_with_merged_prs"⟩,
    ⟨"Starstruck", "Created a repository that has many stars",
      [("Default", 16), ("Bronze", 128), ("Silver", 512), ("Gold", 4096)], "count_max_stars"⟩,
    ⟨"Quickdraw", "Closed an issue/pull request within 5 minutes of opening",
      [("Default", 1)], "check_quickdraw"⟩,
    ⟨"Pair Extraordinaire", "Coauthored commits on merged pull request",
      [("Default", 1), ("Bronze", 10), ("Silver", 24), ("Gold", 48)], "count_coauthored_commits"⟩,
    ⟨"Pull Shark", "Opened a pull request that has been merged",
      [("Default", 2), ("Bronze", 16), ("Silver", 128), ("Gold", 1024)], "count_merged_prs"⟩,
    ⟨"Galaxy Brain", "Answered a discussion (got an accepted answer)",
      [("Default", 2), ("Bronze", 8), ("Silver", 16), ("Gold", 32)], "count_discussion_answers"⟩,
    ⟨"YOLO", "Merged a pull request without a review",
      [("Default", 1)], "check_yolo_merges"⟩,
    ⟨"Public Sponsor", "Sponsored an open source contributor through GitHub Sponsors",
      [("Default", 1)], "check_sponsorships"⟩ ]

/-- The catalogue declaration order (keys of `self.badges` in order). -/
def catalogueOrder : List String := badges.map BadgeDef.name

/-- Stable insertion by tier requirement, the building block of Python
`sorted(tiers.items(), key=lambda x: x[1])` (stable sort by value). -/
def insertByReq (p : String × Nat) : List (String × Nat) → List (String × Nat)
  | [] => [p]
  | q :: rest => if p.2 ≤ q.2 then p :: q :: rest else q :: insertByReq p rest

/-- Python `sorted(tiers.items(), key=lambda x: x[1])`: stable sort of the tier
association list by requirement value. -/
def sortByReq : List (String × Nat) → List (String × Nat)
  | [] => []
  | p :: rest => insertByReq p (sortByReq rest)

/-- The `achieved_tier` loop of `get_badge_progress`:
for each `(tier, requirement)` in requirement order, overwrite the accumulator
with `tier` whenever `current_count >= requirement`. -/
def achievedTierFold (current : Nat) (acc : Option String) :
    List (String × Nat) → Option String
  | [] => acc
  | (t, req) :: rest =>
      achievedTierFold current (if req ≤ current then some t else acc) rest

/-- The `next_requirement` loop of `get_badge_progress`: the first
`(tier, requirement)` in requirement order with `current_count < requirement`,
packaged with `needed = requirement - current_count`. -/
def nextRequirementScan (current : Nat) :
    List (String × Nat) → Option NextReq
  | [] => none
  | (t, req) :: rest =>
      if current < req then some ⟨t, req, req - current⟩
      else nextRequirementScan current rest

/-- One `progress[badge_name]` record of `get_badge_progress`.  (`description`
and `tiers` are carried verbatim from the badge definition; `error` is the
stringified exception stored by the per-badge handler, absent on the normal
path.) -/
structure Entry where
  current : Nat
  achieved_tier : Option String
  next_requirement : Option NextReq
  description : String
  tiers : List (String × Nat)
  error : Option String
deriving DecidableEq, Repr

/-- The normal-path entry of `get_badge_progress` for one badge: tier loops run
over the tiers sorted by requirement. -/
def mkEntry (b : BadgeDef) (current : Nat) : Entry :=
  ⟨current,
   achievedTierFold current none (sortByReq b.tiers),
   nextRequirementScan current (sortByReq b.tiers),
   b.description, b.tiers, none⟩

/-- The `except`-path entry of `get_badge_progress` for one badge: zero count,
no achieved tier, no next requirement, error message retained. -/
def mkErrorEntry (b : BadgeDef) (msg : String) : Entry :=
  ⟨0, none, none, b.description, b.tiers, some msg⟩

/-- The method names that exist on the tracker (`hasattr(self, method_name)`). -/
def methodNames : List String :=
  [ "count_merged_prs", "count_repos_with_merged_prs", "count_max_stars",
    "check_quickdraw", "count_coauthored_commits", "count_discussion_answers",
    "check_yolo_merges", "check_sponsorships" ]

/-- The body of the per-badge `try` block of `get_badge_progress`: dispatch on
`check_method` (`getattr(self, method_name)()`, modelled by an environment
giving each method call outcome, `Except.error` standing for a raised
exception caught by the per-badge handler), falling back to a zero count when
the method does not exist. -/
def entryFor (env : String → Except String Nat) (b : BadgeDef) : Entry :=
  if methodNames.contains b.check_method then
    match env b.check_method with
    | .ok n => mkEntry b n
    | .error msg => mkErrorEntry b msg
  else mkEntry b 0

/-- Embeds `BadgeTracker.get_badge_progress`: one entry per badge of the catalogue, in
catalogue order, keyed by badge name. -/
def get_badge_progress (env : String → Except String Nat) :
    List (String × Entry) :=
  badges.map fun b => (b.name, entryFor env b)

/-- Embeds `BadgeTracker.count_merged_prs`: `count = 0`, then inside `try` the search
result count overwrites it; a raised exception is caught (warning printed) and
the accumulated `count` (still `0`) is returned.  The collaborator call
`search_issues(...).totalCount` is the `Except` input. -/
def count_merged_prs (search : Except String Nat) : Nat :=
  match search with
  | .ok totalCount => totalCount
  | .error _ => 0

/-- One item yielded while iterating the PR search result in
`count_repos_with_merged_prs` (`hasattr(pr, 'repository')` and
`pr.repository.full_name`). -/
structure PrRecord where
  hasRepository : Bool
  repoFullName : String
deriving DecidableEq, Repr

/-- Embeds `BadgeTracker.count_repos_with_merged_prs`: iterate the first 100 search
results, collecting `full_name` into a set; an exception after `k` iterations
(`failAfter = some k`; `some 0` also stands for the search call itself
raising) is caught and the size of the set accumulated so far is returned. -/
def count_repos_with_merged_prs (prs : List PrRecord) (failAfter : Option Nat) : Nat :=
  let observed :=
    match failAfter with
    | none => prs.take 100
    | some k => (prs.take 100).take k
  (((observed.filter (·.hasRepository)).map (·.repoFullName)).dedup).length

/-- One repository yielded by `self.user.get_repos(type='owner')` in
`count_max_stars` (`repo.private`, `repo.stargazers_count`). -/
structure RepoRecord where
  isPrivate : Bool
  stargazers_count : Nat
deriving DecidableEq, Repr

/-- Embeds `BadgeTracker.count_max_stars`: running maximum of `stargazers_count` over
the non-private owned repositories; an exception after `k` iterations
(`failAfter = some k`) is caught and the maximum accumulated so far is
returned. -/
def count_max_stars (repos : List RepoRecord) (failAfter : Option Nat) : Nat :=
  let observed :=
    match failAfter with
    | none => repos
    | some k => repos.take k
  observed.foldl
    (fun max_stars r =>
      if !r.isPrivate && max_stars < r.stargazers_count then r.stargazers_count
      else max_stars)
    0

/-- Embeds `BadgeTracker.check_quickdraw`: prints a note and returns `0`
unconditionally. -/
def check_quickdraw : Nat := 0

/-- Embeds `BadgeTracker.count_coauthored_commits`: prints a note and returns `0`
unconditionally. -/
def count_coauthored_commits : Nat := 0

/-- Embeds `BadgeTracker.count_discussion_answers`: prints a note and returns `0`
unconditionally. -/
def count_discussion_answers : Nat := 0

/-- Embeds `BadgeTracker.check_yolo_merges`: prints a note and returns `0`
unconditionally. -/
def check_yolo_merges : Nat := 0

/-- Embeds `BadgeTracker.check_sponsorships`: prints a note and returns `0`
unconditionally. -/
def check_sponsorships : Nat := 0

/-- The external state the tracker checker methods observe: the merged-PR
search count, the PR records iterated for the distinct-repository count, the
owned repositories iterated for the star count, and the points at which those
iterations raise (all exceptions are caught inside the checkers). -/
structure CollabEnv where
  searchMergedPrs : Except String Nat
  searchPrRecords : List PrRecord
  prFailAfter : Option Nat
  ownedRepos : List RepoRecord
  repoFailAfter : Option Nat
deriving Repr

/-- The integer each checker method returns under a given external state. -/
def collabCount (c : CollabEnv) (m : String) : Nat :=
  if m = "count_merged_prs" then count_merged_prs c.searchMergedPrs
  else if m = "count_repos_with_merged_prs" then
    count_repos_with_merged_prs c.searchPrRecords c.prFailAfter
  else if m = "count_max_stars" then count_max_stars c.ownedRepos c.repoFailAfter
  else if m = "check_quickdraw" then check_quickdraw
  else if m = "count_coauthored_commits" then count_coauthored_commits
  else if m = "count_discussion_answers" then count_discussion_answers
  else if m = "check_yolo_merges" then check_yolo_merges
  else if m = "check_sponsorships" then check_sponsorships
  else 0

/-- The method-call environment induced by wiring the actual checker methods to
an external state: every checker catches collaborator exceptions internally,
so every method call returns normally with an integer. -/
def methodEnvOf (c : CollabEnv) : String → Except String Nat := fun m =>
  if m = "count_merged_prs" then .ok (count_merged_prs c.searchMergedPrs)
  else if m = "count_repos_with_merged_prs" then
    .ok (count_repos_with_merged_prs c.searchPrRecords c.prFailAfter)
  else if m = "count_max_stars" then .ok (count_max_stars c.ownedRepos c.repoFailAfter)
  else if m = "check_quickdraw" then .ok check_quickdraw
  else if m = "count_coauthored_commits" then .ok count_coauthored_commits
  else if m = "count_discussion_answers" then .ok count_discussion_answers
  else if m = "check_yolo_merges" then .ok check_yolo_merges
  else if m = "check_sponsorships" then .ok check_sponsorships
  else .error "no such method"

/-- Last element of a list, if any. -/
def lastOpt {α : Type} : List α → Option α
  | [] => none
  | a :: rest =>
      some (match lastOpt rest with
            | none => a
            | some b => b)

/-- Strictly increasing requirement values, the catalogue invariant on a tier
association list. -/
abbrev StrictTiers (l : List (String × Nat)) : Prop :=
  l.Pairwise fun a b => a.2 < b.2

end BadgeTracker

namespace BadgeOrchestrator

open BadgeTracker

/-- Embeds `BadgeOrchestrator.earning_order`: the fixed easiest-to-hardest list the
planner iterates over. -/
def earning_order : List String :=
  [ "Quickdraw", "YOLO", "Public Sponsor", "Heart On Your Sleeve",
    "Open Sourcerer", "Pair Extraordinaire", "Pull Shark", "Galaxy Brain",
    "Starstruck" ]

/-- The five buckets built by `BadgeOrchestrator.get_earning_plan`.  Each
bucket keeps the badge names it received, in append order; the display-only
payload of each appended record (description, `next_requirement`, the constant
`automated` / `manual_steps` / `tools_available` fields) is determined by the
badge name and the progress entry and is omitted here. -/
structure Plan where
  immediate : List String
  quick : List String
  short_term : List String
  long_term : List String
  completed : List String
deriving DecidableEq, Repr

/-- The body of the `for badge_name in self.earning_order` loop of
`get_earning_plan`: skip names missing from `progress`; append achieved badges
to `completed`; otherwise append to the bucket selected by the static name
sets. -/
def planStep (progress : List (String × Entry)) (plan : Plan)
    (badge_name : String) : Plan :=
  match progress.lookup badge_name with
  | none => plan
  | some badge_info =>
      if badge_info.achieved_tier.isSome then
        { plan with completed := plan.completed ++ [badge_name] }
      else if ["Quickdraw", "YOLO"].contains badge_name then
        { plan with immediate := plan.immediate ++ [badge_name] }
      else if ["Public Sponsor"].contains badge_name then
        { plan with quick := plan.quick ++ [badge_name] }
      else if ["Heart On Your Sleeve", "Open Sourcerer",
               "Pair Extraordinaire"].contains badge_name then
        { plan with short_term := plan.short_term ++ [badge_name] }
      else
        { plan with long_term := plan.long_term ++ [badge_name] }

/-- Embeds `BadgeOrchestrator.get_earning_plan`, applied to the progress mapping
returned by `tracker.get_badge_progress()`: fold the per-badge step over
`earning_order`, starting from five empty buckets. -/
def get_earning_plan (progress : List (String × Entry)) : Plan :=
  earning_order.foldl (planStep progress) ⟨[], [], [], [], []⟩

/-- Identifier for one of the five plan buckets. -/
inductive BucketId
  | immediate | quick | short_term | long_term | completed
deriving DecidableEq, Repr

/-- The contents of one bucket of a plan. -/
def bucketSel (plan : Plan) : BucketId → List String
  | .immediate => plan.immediate
  | .quick => plan.quick
  | .short_term => plan.short_term
  | .long_term => plan.long_term
  | .completed => plan.completed

/-- The bucket `planStep` appends a present badge to, as a function of the
badge name and whether its `achieved_tier` is set (the static
automation-capability lookup of `get_earning_plan`, with the achieved
override). -/
def targetBucket (badge_name : String) (achieved : Bool) : BucketId :=
  if achieved then .completed
  else if ["Quickdraw", "YOLO"].contains badge_name then .immediate
  else if ["Public Sponsor"].contains badge_name then .quick
  else if ["Heart On Your Sleeve", "Open Sourcerer",
           "Pair Extraordinaire"].contains badge_name then .short_term
  else .long_term

/-- Whether `planStep` run on `badge_name` appends it to bucket `b` of the
plan under `progress`. -/
def bucketPred (progress : List (String × Entry)) (b : BucketId)
    (badge_name : String) : Bool :=
  match progress.lookup badge_name with
  | none => false
  | some badge_info =>
      decide (targetBucket badge_name badge_info.achieved_tier.isSome = b)

/-- Opaque handles for the artifacts the two timed workflows create. -/
inductive Handle
  | repo | issue | branch | file | pullRequest
deriving DecidableEq, Repr

/-- External calls the timed workflows perform, in program order.  `sleep` is
the deliberate delay; `logError` is the print in an `except` block. -/
inductive WEvent
  | createRepo | createIssue | sleep (seconds : Nat) | closeIssue
  | getBranch | createBranch | createFile | createPullRequest
  | mergePullRequest | deleteRepo | logError | getRepo | createComment
deriving DecidableEq, Repr

/-- Success flags for the external calls of
`BadgeOrchestrator._earn_quickdraw_badge`; a `false` flag means that call
raises.  `cleanupDeleteOk` is the `repo.delete()` retried inside the
`except` handler (its own failure is swallowed by `except: pass`). -/
structure QuickdrawEnv where
  createRepoOk : Bool
  createIssueOk : Bool
  closeIssueOk : Bool
  deleteRepoOk : Bool
  cleanupDeleteOk : Bool
deriving DecidableEq, Repr

/-- Observable outcome of one timed workflow run: the external calls attempted
in order, the handles successfully created in creation order, the targets of
the `delete` calls attempted in order, whether the container repository ended
up deleted, and the boolean the method returns. -/
structure WorkflowRun where
  events : List WEvent
  created : List Handle
  cleanupAttempted : List Handle
  repoDeleted : Bool
  result : Bool
deriving DecidableEq, Repr

/-- Embeds `BadgeOrchestrator._earn_quickdraw_badge`, path by path.  The `try` body
is `create_repo`; `create_issue`; `time.sleep(30)`; `issue.edit(closed)`;
`repo.delete()`; `return True`.  Any raise jumps to the handler, which prints
the error, attempts `repo.delete()` again when `repo` is in scope (swallowing
its failure), and returns `False`. -/
def earn_quickdraw_badge (env : QuickdrawEnv) : WorkflowRun :=
  if env.createRepoOk then
    if env.createIssueOk then
      if env.closeIssueOk then
        if env.deleteRepoOk then
          ⟨[.createRepo, .createIssue, .sleep 30, .closeIssue, .deleteRepo],
           [.repo, .issue], [.repo], true, true⟩
        else
          -- the main-path repo.delete() raised: handler retries the delete
          ⟨[.createRepo, .createIssue, .sleep 30, .closeIssue, .deleteRepo,
            .logError, .deleteRepo],
           [.repo, .issue], [.repo, .repo], env.cleanupDeleteOk, false⟩
      else
        ⟨[.createRepo, .createIssue, .sleep 30, .closeIssue, .logError,
          .deleteRepo],
         [.repo, .issue], [.repo], env.cleanupDeleteOk, false⟩
    else
      ⟨[.createRepo, .createIssue, .logError, .deleteRepo],
       [.repo], [.repo], env.cleanupDeleteOk, false⟩
  else
    -- create_repo raised before `repo` was bound: nothing to clean up
    ⟨[.createRepo, .logError], [], [], false, false⟩

/-- Success flags for the external calls of
`BadgeOrchestrator._earn_yolo_badge`. -/
structure YoloEnv where
  createRepoOk : Bool
  getBranchOk : Bool
  createBranchOk : Bool
  createFileOk : Bool
  createPullOk : Bool
  mergeOk : Bool
  deleteRepoOk : Bool
  cleanupDeleteOk : Bool
deriving DecidableEq, Repr

/-- Embeds `BadgeOrchestrator._earn_yolo_badge`, path by path.  The `try` body is
`create_repo`; `get_branch("main")`; `create_git_ref`; `create_file`;
`create_pull`; `pr.merge(...)`; `repo.delete()`; `return True` — note there is
no `time.sleep` anywhere on the path.  The handler is identical to the
quickdraw one. -/
def earn_yolo_badge (env : YoloEnv) : WorkflowRun :=
  if env.createRepoOk then
    if env.getBranchOk then
      if env.createBranchOk then
        if env.createFileOk then
          if env.createPullOk then
            if env.mergeOk then
              if env.deleteRepoOk then
                ⟨[.createRepo, .getBranch, .createBranch, .createFile,
                  .createPullRequest, .mergePullRequest, .deleteRepo],
                 [.repo, .branch, .file, .pullRequest], [.repo], true, true⟩
              else
                ⟨[.createRepo, .getBranch, .createBranch, .createFile,
                  .createPullRequest, .mergePullRequest, .deleteRepo,
                  .logError, .deleteRepo],
                 [.repo, .branch, .file, .pullRequest], [.repo, .repo],
                 env.cleanupDeleteOk, false⟩
            else
              ⟨[.createRepo, .getBranch, .createBranch, .createFile,
                .createPullRequest, .mergePullRequest, .logError, .deleteRepo],
               [.repo, .branch, .file, .pullRequest], [.repo],
               env.cleanupDeleteOk, false⟩
          else
            ⟨[.createRepo, .getBranch, .createBranch, .createFile,
              .createPullRequest, .logError, .deleteRepo],
             [.repo, .branch, .file], [.repo], env.cleanupDeleteOk, false⟩
        else
          ⟨[.createRepo, .getBranch, .createBranch, .createFile, .logError,
            .deleteRepo],
           [.repo, .branch], [.repo], env.cleanupDeleteOk, false⟩
      else
        ⟨[.createRepo, .getBranch, .createBranch, .logError, .deleteRepo],
         [.repo], [.repo], env.cleanupDeleteOk, false⟩
    else
      ⟨[.createRepo, .getBranch, .logError, .deleteRepo],
       [.repo], [.repo], env.cleanupDeleteOk, false⟩
  else
    ⟨[.createRepo, .logError], [], [], false, false⟩

/-- The states of the timed-workflow state machine of the specification. -/
inductive WState
  | Idle | Provisioning | Waiting | Finalizing | CleaningUp | Succeeded | Failed
deriving DecidableEq, Repr

/-- Modelled from the spec: the state-machine phase during which each external
call of a timed workflow occurs (`Provisioning` creates artifacts, `Waiting`
is the delay, `Finalizing` performs the irreversible action, `CleaningUp`
deletes, and an error print happens on the way to cleanup). -/
def eventPhase : WEvent → WState
  | .createRepo => .Provisioning
  | .createIssue => .Provisioning
  | .getBranch => .Provisioning
  | .createBranch => .Provisioning
  | .createFile => .Provisioning
  | .createPullRequest => .Provisioning
  | .sleep _ => .Waiting
  | .closeIssue => .Finalizing
  | .mergePullRequest => .Finalizing
  | .deleteRepo => .CleaningUp
  | .logError => .CleaningUp
  | .getRepo => .Provisioning
  | .createComment => .Finalizing

/-- Collapse consecutive duplicates of a state list. -/
def squashConsecutive : List WState → List WState
  | [] => []
  | s :: rest =>
      match squashConsecutive rest with
      | [] => [s]
      | t :: rest2 => if s = t then t :: rest2 else s :: t :: rest2

/-- Modelled from the spec: the state sequence a run traverses, derived from
its event trace — `Idle`, then the phase of each call with consecutive
duplicates collapsed, then the terminal state given by the returned
boolean. -/
def stateSequence (r : WorkflowRun) : List WState :=
  WState.Idle ::
    (squashConsecutive (r.events.map eventPhase) ++
      [if r.result then WState.Succeeded else WState.Failed])

/-- Whether an event is a deliberate delay. -/
def isSleepEvent : WEvent → Bool
  | .sleep _ => true
  | _ => false

/-- Success flags for the external calls of
`QuickdrawAutomation.create_and_close_issue_quickly`. -/
structure QuickIssueEnv where
  getRepoOk : Bool
  createIssueOk : Bool
  createCommentOk : Bool
  closeIssueOk : Bool
deriving DecidableEq, Repr

/-- Embeds `QuickdrawAutomation.create_and_close_issue_quickly(repo_name,
delay_seconds)` (the `delay_seconds` parameter defaults to `30` in the
source): `get_repo`; `create_issue`; `time.sleep(delay_seconds)`;
`create_comment`; `issue.edit(closed)`; `return True`; any raise is caught,
logged and `False` is returned with no cleanup. -/
def create_and_close_issue_quickly (env : QuickIssueEnv)
    (delay_seconds : Nat) : WorkflowRun :=
  if env.getRepoOk then
    if env.createIssueOk then
      if env.createCommentOk then
        if env.closeIssueOk then
          ⟨[.getRepo, .createIssue, .sleep delay_seconds, .createComment,
            .closeIssue],
           [.issue], [], false, true⟩
        else
          ⟨[.getRepo, .createIssue, .sleep delay_seconds, .createComment,
            .closeIssue, .logError],
           [.issue], [], false, false⟩
      else
        ⟨[.getRepo, .createIssue, .sleep delay_seconds, .createComment,
          .logError],
         [.issue], [], false, false⟩
    else
      ⟨[.getRepo, .createIssue, .logError], [], [], false, false⟩
  else
    ⟨[.getRepo, .logError], [], [], false, false⟩

end BadgeOrchestrator


namespace BadgeTracker

theorem strictTiers_cons {a : String × Nat} {l : List (String × Nat)} :
    StrictTiers (a :: l) ↔ (∀ b ∈ l, a.2 < b.2) ∧ StrictTiers l :=
  List.pairwise_cons

theorem lastOpt_eq_none_iff {α : Type} (l : List α) :
    lastOpt l = none ↔ l = [] := by
  cases l <;> simp [lastOpt]

theorem lastOpt_mem {α : Type} {l : List α} {a : α}
    (h : lastOpt l = some a) : a ∈ l := by
  induction l with
  | nil => simp [lastOpt] at h
  | cons b rest ih =>
      simp only [lastOpt] at h
      cases hrest : lastOpt rest with
      | none =>
          rw [hrest] at h
          simp at h
          simp [h]
      | some c =>
          rw [hrest] at h
          simp at h
          exact List.mem_cons_of_mem _ (ih (by rw [hrest, h]))

theorem lastOpt_max {l : List (String × Nat)} {p : String × Nat}
    (hs : StrictTiers l) (h : lastOpt l = some p) :
    ∀ x ∈ l, x.2 ≤ p.2 := by
  induction l with
  | nil => simp [lastOpt] at h
  | cons a rest ih =>
      rw [strictTiers_cons] at hs
      simp only [lastOpt] at h
      intro x hx
      cases hrest : lastOpt rest with
      | none =>
          rw [hrest] at h
          simp at h
          rw [(lastOpt_eq_none_iff rest).mp hrest] at hx
          simp at hx
          rw [hx, h]
      | some c =>
          rw [hrest] at h
          simp at h
          rcases List.mem_cons.mp hx with hx | hx
          · rw [hx]
            exact le_of_lt (h ▸ hs.1 c (lastOpt_mem hrest))
          · exact ih hs.2 (by rw [hrest, h]) x hx

theorem pair_inj {l : List (String × Nat)} {a b : String × Nat}
    (hs : StrictTiers l) (ha : a ∈ l) (hb : b ∈ l) (hv : a.2 = b.2) :
    a = b := by
  induction l with
  | nil => simp at ha
  | cons c rest ih =>
      rw [strictTiers_cons] at hs
      rcases List.mem_cons.mp ha with ha | ha <;>
        rcases List.mem_cons.mp hb with hb | hb
      · rw [ha, hb]
      · have := hs.1 b hb
        rw [← ha, hv] at this
        exact absurd this (lt_irrefl _)
      · have := hs.1 a ha
        rw [← hb, ← hv] at this
        exact absurd this (lt_irrefl _)
      · exact ih hs.2 ha hb

/-- Stable insertion puts the new pair in front whenever its requirement does
not exceed the head requirement. -/
theorem insertByReq_front {p : String × Nat} {l : List (String × Nat)}
    (h : ∀ q ∈ l.head?, p.2 ≤ q.2) : insertByReq p l = p :: l := by
  cases l with
  | nil => rfl
  | cons q rest => simp only [insertByReq, if_pos (h q rfl)]

/-- A tier list whose requirements are already strictly increasing is left
unchanged by the sort of `get_badge_progress`. -/
theorem sortByReq_eq_self {l : List (String × Nat)} (hs : StrictTiers l) :
    sortByReq l = l := by
  induction l with
  | nil => rfl
  | cons p rest ih =>
      rw [strictTiers_cons] at hs
      rw [sortByReq, ih hs.2]
      refine insertByReq_front ?_
      intro q hq
      cases rest with
      | nil => simp at hq
      | cons a t =>
          simp at hq
          rw [← hq]
          exact le_of_lt (hs.1 a (List.mem_cons_self a t))

/-- The achieved-tier loop returns the label of the last qualifying tier in
scan order, or the accumulator when no tier qualifies. -/
theorem achievedTierFold_eq (current : Nat) (acc : Option String)
    (l : List (String × Nat)) :
    achievedTierFold current acc l =
      ((lastOpt (l.filter fun q => q.2 ≤ current)).map
        (fun p => some p.1)).getD acc := by
  induction l generalizing acc with
  | nil => rfl
  | cons p rest ih =>
      obtain ⟨t, req⟩ := p
      by_cases hreq : req ≤ current
      · rw [show achievedTierFold current acc ((t, req) :: rest) =
              achievedTierFold current (some t) rest by
            simp [achievedTierFold, hreq]]
        rw [ih (some t)]
        rw [show ((t, req) :: rest).filter (fun q => q.2 ≤ current) =
              (t, req) :: rest.filter (fun q => q.2 ≤ current) by
            simp [List.filter_cons, hreq]]
        cases hrest : lastOpt (rest.filter fun q => q.2 ≤ current) with
        | none => simp [lastOpt, hrest]
        | some b => simp [lastOpt, hrest]
      · rw [show achievedTierFold current acc ((t, req) :: rest) =
              achievedTierFold current acc rest by
            simp [achievedTierFold, hreq]]
        rw [ih acc]
        rw [show ((t, req) :: rest).filter (fun q => q.2 ≤ current) =
              rest.filter (fun q => q.2 ≤ current) by
            simp [List.filter_cons, hreq]]

theorem achievedTierFold_eq_none_iff (current : Nat)
    (l : List (String × Nat)) :
    achievedTierFold current none l = none ↔ ∀ q ∈ l, current < q.2 := by
  rw [achievedTierFold_eq]
  cases hlast : lastOpt (l.filter fun q => q.2 ≤ current) with
  | none =>
      simp only [hlast, Option.map_none', Option.getD_none, true_iff]
      rw [lastOpt_eq_none_iff] at hlast
      intro q hq
      by_contra hlt
      push_neg at hlt
      have : q ∈ l.filter fun q => q.2 ≤ current := by
        simp [List.mem_filter, hq, hlt]
      simp [hlast] at this
  | some p =>
      simp only [hlast, Option.map_some', Option.getD_some]
      constructor
      · intro h
        exact absurd h (by simp)
      · intro h
        have hp := lastOpt_mem hlast
        rw [List.mem_filter] at hp
        have h1 := h p hp.1
        have h2 : p.2 ≤ current := by simpa using hp.2
        exact absurd h1 (by omega)

theorem achievedTierFold_some_iff {l : List (String × Nat)}
    (hs : StrictTiers l) (current : Nat) (t : String) :
    achievedTierFold current none l = some t ↔
      ∃ r, (t, r) ∈ l ∧ r ≤ current ∧
        ∀ q ∈ l, q.2 ≤ current → q.2 ≤ r := by
  have hfil : StrictTiers (l.filter fun q => q.2 ≤ current) :=
    List.Pairwise.sublist (List.filter_sublist l) hs
  rw [achievedTierFold_eq]
  cases hlast : lastOpt (l.filter fun q => q.2 ≤ current) with
  | none =>
      simp only [hlast, Option.map_none', Option.getD_none]
      rw [lastOpt_eq_none_iff] at hlast
      constructor
      · intro h
        exact absurd h (by simp)
      · rintro ⟨r, hmem, hr, -⟩
        have : (t, r) ∈ l.filter fun q => q.2 ≤ current := by
          simp [List.mem_filter, hmem, hr]
        rw [hlast] at this
        simp at this
  | some p =>
      simp only [hlast, Option.map_some', Option.getD_some, Option.some_inj]
      have hpmem := lastOpt_mem hlast
      have hpql : p ∈ l ∧ p.2 ≤ current := by
        rw [List.mem_filter] at hpmem
        exact ⟨hpmem.1, by simpa using hpmem.2⟩
      constructor
      · intro h
        refine ⟨p.2, ?_, hpql.2, ?_⟩
        · rw [← h]
          exact hpql.1
        · intro q hq hqc
          refine lastOpt_max hfil hlast q ?_
          simp [List.mem_filter, hq, hqc]
      · rintro ⟨r, hmem, hr, hmax⟩
        have hpr : p.2 ≤ r := hmax p hpql.1 hpql.2
        have hrp : r ≤ p.2 :=
          lastOpt_max hfil hlast (t, r) (by simp [List.mem_filter, hmem, hr])
        have heq : (t, r) = p :=
          pair_inj hs hmem hpql.1 (show (t, r).2 = p.2 from hrp.antisymm hpr)
        rw [← heq]

theorem nextRequirementScan_eq_none_iff (current : Nat)
    (l : List (String × Nat)) :
    nextRequirementScan current l = none ↔ ∀ q ∈ l, q.2 ≤ current := by
  induction l with
  | nil => simp [nextRequirementScan]
  | cons p rest ih =>
      obtain ⟨t, req⟩ := p
      by_cases h : current < req
      · rw [show nextRequirementScan current ((t, req) :: rest) =
              some ⟨t, req, req - current⟩ by simp [nextRequirementScan, h]]
        constructor
        · intro hc
          exact absurd hc (by simp)
        · intro hall
          have := hall (t, req) (List.mem_cons_self _ _)
          simp at this
          omega
      · rw [show nextRequirementScan current ((t, req) :: rest) =
              nextRequirementScan current rest by simp [nextRequirementScan, h]]
        rw [ih]
        constructor
        · intro hall q hq
          rcases List.mem_cons.mp hq with hm | hm
          · rw [hm]
            simp
            omega
          · exact hall q hm
        · intro hall q hq
          exact hall q (List.mem_cons_of_mem _ hq)

theorem nextRequirementScan_some (current : Nat)
    {l : List (String × Nat)} {t : String} {r d : Nat}
    (h : nextRequirementScan current l = some ⟨t, r, d⟩) :
    (t, r) ∈ l ∧ current < r ∧ d = r - current := by
  induction l with
  | nil => simp [nextRequirementScan] at h
  | cons p rest ih =>
      obtain ⟨t0, req⟩ := p
      by_cases hq : current < req
      · rw [show nextRequirementScan current ((t0, req) :: rest) =
              some ⟨t0, req, req - current⟩ by
            simp [nextRequirementScan, hq]] at h
        simp at h
        obtain ⟨h1, h2, h3⟩ := h
        exact ⟨by simp [← h1, ← h2], by omega, by omega⟩
      · rw [show nextRequirementScan current ((t0, req) :: rest) =
              nextRequirementScan current rest by
            simp [nextRequirementScan, hq]] at h
        obtain ⟨h1, h2, h3⟩ := ih h
        exact ⟨List.mem_cons_of_mem _ h1, h2, h3⟩

theorem nextRequirementScan_min {l : List (String × Nat)}
    (hs : StrictTiers l) (current : Nat) {t : String} {r d : Nat}
    (h : nextRequirementScan current l = some ⟨t, r, d⟩) :
    ∀ q ∈ l, current < q.2 → r ≤ q.2 := by
  induction l with
  | nil => simp [nextRequirementScan] at h
  | cons p rest ih =>
      rw [strictTiers_cons] at hs
      obtain ⟨t0, req⟩ := p
      by_cases hq : current < req
      · rw [show nextRequirementScan current ((t0, req) :: rest) =
              some ⟨t0, req, req - current⟩ by
            simp [nextRequirementScan, hq]] at h
        simp at h
        intro q hmem _
        rcases List.mem_cons.mp hmem with hm | hm
        · rw [hm] at *
          omega
        · have := hs.1 q hm
          omega
      · rw [show nextRequirementScan current ((t0, req) :: rest) =
              nextRequirementScan current rest by
            simp [nextRequirementScan, hq]] at h
        intro q hmem hql
        rcases List.mem_cons.mp hmem with hm | hm
        · rw [hm] at hql
          simp at hql
          omega
        · exact ih hs.2 h q hm hql

theorem nextRequirementScan_eq_some {l : List (String × Nat)}
    (hs : StrictTiers l) (current : Nat) {t : String} {r : Nat}
    (hmem : (t, r) ∈ l) (hr : current < r)
    (hmin : ∀ q ∈ l, current < q.2 → r ≤ q.2) :
    nextRequirementScan current l = some ⟨t, r, r - current⟩ := by
  induction l with
  | nil => simp at hmem
  | cons p rest ih =>
      rw [strictTiers_cons] at hs
      obtain ⟨t0, req⟩ := p
      by_cases hq : current < req
      · rw [show nextRequirementScan current ((t0, req) :: rest) =
              some ⟨t0, req, req - current⟩ by
            simp [nextRequirementScan, hq]]
        have hle : r ≤ req := hmin (t0, req) (List.mem_cons_self _ _) hq
        rcases List.mem_cons.mp hmem with hm | hm
        · simp at hm
          rw [hm.1, hm.2]
        · have := hs.1 (t, r) hm
          simp at this
          omega
      · rw [show nextRequirementScan current ((t0, req) :: rest) =
              nextRequirementScan current rest by
            simp [nextRequirementScan, hq]]
        rcases List.mem_cons.mp hmem with hm | hm
        · simp at hm
          omega
        · exact ih hs.2 hm fun q hq2 hql => hmin q (List.mem_cons_of_mem _ hq2) hql

theorem achievedTierFold_all_qual (current : Nat)
    {l : List (String × Nat)} (h : ∀ q ∈ l, q.2 ≤ current) (hne : l ≠ []) :
    achievedTierFold current none l = (lastOpt l).map Prod.fst := by
  rw [achievedTierFold_eq]
  have hfil : l.filter (fun q => q.2 ≤ current) = l := by
    refine List.filter_eq_self.mpr ?_
    intro a ha
    simpa using h a ha
  rw [hfil]
  cases hl : lastOpt l with
  | none =>
      rw [lastOpt_eq_none_iff] at hl
      exact absurd hl hne
  | some p => simp

theorem forall_lt_iff_head {l : List (String × Nat)} (hs : StrictTiers l)
    {hd : String × Nat} (hh : l.head? = some hd) (current : Nat) :
    (∀ q ∈ l, current < q.2) ↔ current < hd.2 := by
  cases l with
  | nil => simp at hh
  | cons a rest =>
      simp at hh
      rw [strictTiers_cons] at hs
      constructor
      · intro hall
        exact hh ▸ hall a (List.mem_cons_self a rest)
      · intro hlt q hq
        have ha : current < a.2 := by
          rw [hh]
          exact hlt
        rcases List.mem_cons.mp hq with hm | hm
        · rw [hm]
          exact ha
        · exact ha.trans (hs.1 q hm)

theorem forall_le_iff_last {l : List (String × Nat)} (hs : StrictTiers l)
    {lst : String × Nat} (hl : lastOpt l = some lst) (current : Nat) :
    (∀ q ∈ l, q.2 ≤ current) ↔ lst.2 ≤ current := by
  constructor
  · intro hall
    exact hall lst (lastOpt_mem hl)
  · intro hle q hq
    exact (lastOpt_max hs hl q hq).trans hle

end BadgeTracker

namespace BadgeOrchestrator

open BadgeTracker

theorem bucketSel_planStep (progress : List (String × Entry)) (acc : Plan)
    (n : String) (b : BucketId) :
    bucketSel (planStep progress acc n) b =
      if bucketPred progress b n then bucketSel acc b ++ [n]
      else bucketSel acc b := by
  obtain ⟨i, q, s, lt, c⟩ := acc
  unfold planStep bucketPred targetBucket
  cases h : progress.lookup n with
  | none => simp
  | some info =>
      by_cases ha : info.achieved_tier.isSome
      · simp only [ha, if_true]
        cases b <;> simp [bucketSel]
      · by_cases h1 : (["Quickdraw", "YOLO"]).contains n
        · simp only [ha, h1, Bool.false_eq_true, if_false, if_true]
          cases b <;> simp [bucketSel]
        · by_cases h2 : (["Public Sponsor"]).contains n
          · simp only [ha, h1, h2, Bool.false_eq_true, if_false, if_true]
            cases b <;> simp [bucketSel]
          · by_cases h3 : (["Heart On Your Sleeve", "Open Sourcerer",
                "Pair Extraordinaire"]).contains n
            · simp only [ha, h1, h2, h3, Bool.false_eq_true, if_false, if_true]
              cases b <;> simp [bucketSel]
            · simp only [ha, h1, h2, h3, Bool.false_eq_true, if_false]
              cases b <;> simp [bucketSel]

theorem bucketSel_foldl_planStep (progress : List (String × Entry))
    (b : BucketId) (names : List String) (acc : Plan) :
    bucketSel (names.foldl (planStep progress) acc) b =
      bucketSel acc b ++ names.filter (bucketPred progress b) := by
  induction names generalizing acc with
  | nil => simp
  | cons n rest ih =>
      rw [List.foldl_cons, ih, List.filter_cons, bucketSel_planStep]
      by_cases hp : bucketPred progress b n <;> simp [hp]

/-- Each bucket of the earning plan is exactly `earning_order` restricted to
the badges that bucket receives. -/
theorem get_earning_plan_bucket (progress : List (String × Entry))
    (b : BucketId) :
    bucketSel (get_earning_plan progress) b =
      earning_order.filter (bucketPred progress b) := by
  unfold get_earning_plan
  rw [bucketSel_foldl_planStep]
  cases b <;> rfl

end BadgeOrchestrator

namespace BadgeTracker

/-- Catalogue invariant: every badge has a nonempty, strictly increasing tier
list. -/
theorem badges_tiers_ok : ∀ b ∈ badges, StrictTiers b.tiers ∧ b.tiers ≠ [] := by
  decide

/-- Every catalogue badge names an existing checker method. -/
theorem badges_method_ok : ∀ b ∈ badges,
    methodNames.contains b.check_method = true := by
  decide

theorem entryFor_of_contains {env : String → Except String Nat} {b : BadgeDef}
    (h : methodNames.contains b.check_method = true) :
    entryFor env b =
      match env b.check_method with
      | .ok n => mkEntry b n
      | .error msg => mkErrorEntry b msg := by
  unfold entryFor
  rw [h]
  simp

/-- On the normal path, with sorted nonempty tiers, exactly one of the two
display situations holds: top tier achieved with no next requirement, or a
next requirement strictly above the current count. -/
theorem mkEntry_xor (b : BadgeDef) (hs : StrictTiers b.tiers)
    (hne : b.tiers ≠ []) (n : Nat) :
    Xor' ((mkEntry b n).achieved_tier = (lastOpt b.tiers).map Prod.fst ∧
          (mkEntry b n).next_requirement = none)
         (∃ nr, (mkEntry b n).next_requirement = some nr ∧ n < nr.count) := by
  have hsort : sortByReq b.tiers = b.tiers := sortByReq_eq_self hs
  have hach : (mkEntry b n).achieved_tier =
      achievedTierFold n none b.tiers := by
    simp [mkEntry, hsort]
  have hnext : (mkEntry b n).next_requirement =
      nextRequirementScan n b.tiers := by
    simp [mkEntry, hsort]
  cases hscan : nextRequirementScan n b.tiers with
  | none =>
      left
      constructor
      · constructor
        · rw [hach]
          exact achievedTierFold_all_qual n
            ((nextRequirementScan_eq_none_iff n b.tiers).mp hscan) hne
        · rw [hnext, hscan]
      · rintro ⟨nr, hnr, -⟩
        rw [hnext, hscan] at hnr
        exact absurd hnr (by simp)
  | some nr =>
      right
      constructor
      · obtain ⟨t, r, d⟩ := nr
        have := nextRequirementScan_some n hscan
        exact ⟨⟨t, r, d⟩, by rw [hnext, hscan], this.2.1⟩
      · rintro ⟨-, hcontra⟩
        rw [hnext, hscan] at hcontra
        exact absurd hcontra (by simp)

end BadgeTracker

open BadgeTracker BadgeOrchestrator

/-- C1 counterexample: under a collaborator state where every query fails (and
the sponsorship signal is unobservable), the entry for the Public Sponsor
badge has no unknown marker (`error = none`) and a present
`next_requirement`, refuting the claim that an unknown reading yields
`achievedTier = none` and `nextTier = none` with the unknown marker retained:
the unobservable reading is silently treated as a zero count. -/
theorem claim_C1_counterexample :
    ((get_badge_progress (methodEnvOf
        ⟨Except.error "rate limited", [], some 0, [], some 0⟩)).lookup
      "Public Sponsor").map
        (fun e => (e.achieved_tier, e.next_requirement, e.error)) =
      some (none, some ⟨"Default", 1, 1⟩, none) := by decide

/-- C1 amended: with the real checker methods wired in, every badge entry is a
normal entry computed from the integer the checker returns — a caught
transient failure or an unobservable metric yields a count (0 when nothing
was observed) that flows into tier computation exactly like a genuine
reading, with no unknown marker; `achievedTier = none ∧ nextTier = none`
together arise only on the per-badge error path, when a check method itself
raises, and there the error marker is retained. -/
theorem claim_C1_amended :
    (∀ c : CollabEnv,
      get_badge_progress (methodEnvOf c) =
        badges.map fun b => (b.name, mkEntry b (collabCount c b.check_method)))
    ∧ (∀ msg, count_merged_prs (Except.error msg) = 0)
    ∧ (∀ (env : String → Except String Nat) b msg, b ∈ badges →
        env b.check_method = Except.error msg →
        entryFor env b = mkErrorEntry b msg ∧
        (entryFor env b).achieved_tier = none ∧
        (entryFor env b).next_requirement = none ∧
        (entryFor env b).error = some msg) := by
  refine ⟨fun c => rfl, fun msg => rfl, ?_⟩
  intro env b msg hb he
  rw [entryFor_of_contains (badges_method_ok b hb), he]
  exact ⟨rfl, rfl, rfl, rfl⟩

/-- C1 witness: the amended theorem applied to the Quickdraw badge and a
method environment whose call raises. -/
theorem claim_C1_witness :
    ((⟨"Quickdraw", "Closed an issue/pull request within 5 minutes of opening",
        [("Default", 1)], "check_quickdraw"⟩ : BadgeDef) ∈ badges) ∧
    ((fun _ : String => (Except.error "boom" : Except String Nat))
        (⟨"Quickdraw", "Closed an issue/pull request within 5 minutes of opening",
          [("Default", 1)], "check_quickdraw"⟩ : BadgeDef).check_method =
      Except.error "boom") ∧
    entryFor (fun _ => Except.error "boom")
        ⟨"Quickdraw", "Closed an issue/pull request within 5 minutes of opening",
          [("Default", 1)], "check_quickdraw"⟩ =
      mkErrorEntry
        ⟨"Quickdraw", "Closed an issue/pull request within 5 minutes of opening",
          [("Default", 1)], "check_quickdraw"⟩ "boom" :=
  ⟨by decide, rfl,
   (claim_C1_amended.2.2 (fun _ => Except.error "boom") _ "boom" (by decide)
     rfl).1⟩

/-- C2 counterexample: in a quickdraw run whose finalize step (closing the
issue) succeeded, a failure of the cleanup delete makes the run report
failure, refuting the claim that the result was fixed by the finalize outcome
and unchanged by cleanup failure; the same env with the delete succeeding
reports success, so the cleanup failure alone flipped the result. -/
theorem claim_C2_counterexample :
    (earn_quickdraw_badge ⟨true, true, true, false, true⟩).result = false
    ∧ (earn_quickdraw_badge ⟨true, true, true, true, true⟩).result = true
    ∧ (earn_quickdraw_badge ⟨true, true, true, false, true⟩).events.take 4 =
        [WEvent.createRepo, WEvent.createIssue, WEvent.sleep 30,
         WEvent.closeIssue] := by
  decide

/-- C2 amended: a cleanup failure is caught inside the run (the method still
returns normally, after logging and a swallowed retry of the delete), but it
does change the result: a timed workflow reports success exactly when every
step, the cleanup delete included, succeeded; in particular a run whose
finalize succeeded but whose cleanup delete failed reports failure,
independently of the retried delete in the handler. -/
theorem claim_C2_amended :
    (∀ (a b c d e : Bool),
      (earn_quickdraw_badge ⟨a, b, c, d, e⟩).result = (a && b && c && d))
    ∧ (∀ (a b c d e f g h2 : Bool),
      (earn_yolo_badge ⟨a, b, c, d, e, f, g, h2⟩).result =
        (a && b && c && d && e && f && g))
    ∧ (∀ (e : Bool),
      (earn_quickdraw_badge ⟨true, true, true, false, e⟩).result = false) := by
  refine ⟨by decide, by decide, by decide⟩

/-- C3: for every strictly increasing tier table, the computed progress sets
the achieved tier to the label of the greatest threshold at most the reading
(none exactly when the reading is below the smallest threshold), and the next
requirement to the first tier whose threshold exceeds the reading with
`needed = threshold - reading` (none exactly when the reading meets the
highest threshold); the {Default 1, Bronze 16, Silver 128, Gold 1024} example
at reading 16 yields Bronze achieved and next Silver at 128 with 112
remaining. -/
theorem claim_C3 (b : BadgeDef) (hs : StrictTiers b.tiers) (n : Nat) :
    (∀ t, (mkEntry b n).achieved_tier = some t ↔
        ∃ r, (t, r) ∈ b.tiers ∧ r ≤ n ∧ ∀ q ∈ b.tiers, q.2 ≤ n → q.2 ≤ r)
    ∧ ((mkEntry b n).achieved_tier = none ↔ ∀ q ∈ b.tiers, n < q.2)
    ∧ (∀ hd, b.tiers.head? = some hd →
        ((mkEntry b n).achieved_tier = none ↔ n < hd.2))
    ∧ (∀ t r d, (mkEntry b n).next_requirement = some ⟨t, r, d⟩ ↔
        ((t, r) ∈ b.tiers ∧ n < r ∧ d = r - n ∧
         ∀ q ∈ b.tiers, n < q.2 → r ≤ q.2))
    ∧ ((mkEntry b n).next_requirement = none ↔ ∀ q ∈ b.tiers, q.2 ≤ n)
    ∧ (∀ lst, lastOpt b.tiers = some lst →
        ((mkEntry b n).next_requirement = none ↔ lst.2 ≤ n))
    ∧ ((mkEntry ⟨"Example", "", [("Default", 1), ("Bronze", 16),
          ("Silver", 128), ("Gold", 1024)], "m"⟩ 16).achieved_tier =
        some "Bronze"
       ∧ (mkEntry ⟨"Example", "", [("Default", 1), ("Bronze", 16),
            ("Silver", 128), ("Gold", 1024)], "m"⟩ 16).next_requirement =
          some ⟨"Silver", 128, 112⟩) := by
  have hsort : sortByReq b.tiers = b.tiers := sortByReq_eq_self hs
  have hach : (mkEntry b n).achieved_tier = achievedTierFold n none b.tiers := by
    simp [mkEntry, hsort]
  have hnext : (mkEntry b n).next_requirement =
      nextRequirementScan n b.tiers := by
    simp [mkEntry, hsort]
  refine ⟨?_, ?_, ?_, ?_, ?_, ?_, by decide, by decide⟩
  · intro t
    rw [hach]
    exact achievedTierFold_some_iff hs n t
  · rw [hach]
    exact achievedTierFold_eq_none_iff n b.tiers
  · intro hd hhd
    rw [hach, achievedTierFold_eq_none_iff]
    exact forall_lt_iff_head hs hhd n
  · intro t r d
    rw [hnext]
    constructor
    · intro h
      have h1 := nextRequirementScan_some n h
      have h2 := nextRequirementScan_min hs n h
      exact ⟨h1.1, h1.2.1, h1.2.2, h2⟩
    · rintro ⟨hmem, hr, hd2, hmin⟩
      subst hd2
      exact nextRequirementScan_eq_some hs n hmem hr hmin
  · rw [hnext]
    exact nextRequirementScan_eq_none_iff n b.tiers
  · intro lst hlst
    rw [hnext, nextRequirementScan_eq_none_iff]
    exact forall_le_iff_last hs hlst n

/-- C3 witness: the theorem applied to the Pull Shark tier table at
reading 16, its strict-increase hypothesis discharged by evaluation. -/
theorem claim_C3_witness :
    StrictTiers (⟨"Pull Shark", "Opened a pull request that has been merged",
      [("Default", 2), ("Bronze", 16), ("Silver", 128), ("Gold", 1024)],
      "count_merged_prs"⟩ : BadgeDef).tiers
    ∧ ((mkEntry ⟨"Pull Shark", "Opened a pull request that has been merged",
          [("Default", 2), ("Bronze", 16), ("Silver", 128), ("Gold", 1024)],
          "count_merged_prs"⟩ 16).achieved_tier = none ↔
        ∀ q ∈ (⟨"Pull Shark", "Opened a pull request that has been merged",
          [("Default", 2), ("Bronze", 16), ("Silver", 128), ("Gold", 1024)],
          "count_merged_prs"⟩ : BadgeDef).tiers, 16 < q.2) :=
  ⟨by decide, (claim_C3 _ (by decide) 16).2.1⟩

/-- C4 counterexample: when the merged-PR check raises (the exception caught
by the per-badge handler), the produced entry has both `achieved_tier = none`
and `next_requirement = none`, refuting the claim that no produced entry ever
has both none. -/
theorem claim_C4_counterexample :
    ((get_badge_progress fun m =>
        if m = "count_merged_prs" then Except.error "transient query failure"
        else Except.ok 0).lookup "Heart On Your Sleeve").map
      (fun e => (e.achieved_tier, e.next_requirement)) =
      some (none, none) := by decide

/-- C4 amended: for every entry the tracker produces, if the entry came from
the normal path (no error marker) then exactly one of the two situations
holds — the achieved tier is the label of the highest tier with no next
requirement, or a next requirement exists whose threshold exceeds the
count — while an entry from the error path (check raised) has both
`achieved_tier = none` and `next_requirement = none`. -/
theorem claim_C4_amended (env : String → Except String Nat) (p : String × Entry)
    (hp : p ∈ get_badge_progress env) :
    (p.2.error = none →
      Xor' (p.2.achieved_tier = (lastOpt p.2.tiers).map Prod.fst ∧
            p.2.next_requirement = none)
           (∃ nr, p.2.next_requirement = some nr ∧ p.2.current < nr.count))
    ∧ (∀ msg, p.2.error = some msg →
        p.2.achieved_tier = none ∧ p.2.next_requirement = none) := by
  obtain ⟨b, hb, rfl⟩ := List.mem_map.mp hp
  have hok := badges_tiers_ok b hb
  dsimp only
  rw [entryFor_of_contains (badges_method_ok b hb)]
  cases henv : env b.check_method with
  | ok n =>
      constructor
      · intro _
        exact mkEntry_xor b hok.1 hok.2 n
      · intro msg hmsg
        exact absurd hmsg (by simp [mkEntry])
  | error msg =>
      constructor
      · intro hcontra
        exact absurd hcontra (by simp [mkErrorEntry])
      · intro m hm
        exact ⟨rfl, rfl⟩

/-- C4 witness: the amended theorem applied to the Quickdraw entry of a run
in which every method call returns 0. -/
theorem claim_C4_witness :
    (("Quickdraw", (⟨0, none, some ⟨"Default", 1, 1⟩,
        "Closed an issue/pull request within 5 minutes of opening",
        [("Default", 1)], none⟩ : Entry)) ∈
      get_badge_progress (fun _ => Except.ok 0)) ∧
    ((⟨0, none, some ⟨"Default", 1, 1⟩,
        "Closed an issue/pull request within 5 minutes of opening",
        [("Default", 1)], none⟩ : Entry).error = none →
      Xor' ((⟨0, none, some ⟨"Default", 1, 1⟩,
        "Closed an issue/pull request within 5 minutes of opening",
        [("Default", 1)], none⟩ : Entry).achieved_tier =
          (lastOpt (⟨0, none, some ⟨"Default", 1, 1⟩,
        "Closed an issue/pull request within 5 minutes of opening",
        [("Default", 1)], none⟩ : Entry).tiers).map Prod.fst ∧
        (⟨0, none, some ⟨"Default", 1, 1⟩,
        "Closed an issue/pull request within 5 minutes of opening",
        [("Default", 1)], none⟩ : Entry).next_requirement = none)
       (∃ nr, (⟨0, none, some ⟨"Default", 1, 1⟩,
        "Closed an issue/pull request within 5 minutes of opening",
        [("Default", 1)], none⟩ : Entry).next_requirement = some nr ∧
        (⟨0, none, some ⟨"Default", 1, 1⟩,
        "Closed an issue/pull request within 5 minutes of opening",
        [("Default", 1)], none⟩ : Entry).current < nr.count)) :=
  ⟨by decide, (claim_C4_amended (fun _ => Except.ok 0)
    ("Quickdraw", (⟨0, none, some ⟨"Default", 1, 1⟩,
        "Closed an issue/pull request within 5 minutes of opening",
        [("Default", 1)], none⟩ : Entry)) (by decide)).1⟩

/-- C5 counterexample: injecting a failure at the finalize step of the
quickdraw workflow, the handles created strictly before the failure are
the repository and the issue, but cleanup is attempted on the repository
handle only — the issue handle is never individually targeted — refuting the
claim that cleanup is attempted on every handle created before the
failure. -/
theorem claim_C5_counterexample :
    (earn_quickdraw_badge ⟨true, true, false, true, true⟩).created =
      [Handle.repo, Handle.issue]
    ∧ (earn_quickdraw_badge ⟨true, true, false, true, true⟩).cleanupAttempted =
      [Handle.repo]
    ∧ Handle.issue ∉
        (earn_quickdraw_badge
          ⟨true, true, false, true, true⟩).cleanupAttempted := by
  decide

/-- C5 amended: the only handle ever tracked for cleanup is the container
repository (the local `repo` variable); at every injected failure point,
cleanup is attempted exactly on the repository when it was created strictly
before the failure and on nothing otherwise — which coincides with the set of
handles created before the failure for a failure at provisioning step 1 or 2,
but at a finalize failure the dependent artifact handles created before the
failure are not individually targeted (they are removed only transitively
with the repository). -/
theorem claim_C5_amended :
    ∀ (a b c d e f g h2 : Bool),
      ((earn_quickdraw_badge ⟨false, a, b, c, d⟩).created = []
       ∧ (earn_quickdraw_badge ⟨false, a, b, c, d⟩).cleanupAttempted = [])
    ∧ ((earn_quickdraw_badge ⟨true, false, b, c, d⟩).created = [Handle.repo]
       ∧ (earn_quickdraw_badge ⟨true, false, b, c, d⟩).cleanupAttempted =
          [Handle.repo])
    ∧ ((earn_quickdraw_badge ⟨true, true, false, c, d⟩).created =
          [Handle.repo, Handle.issue]
       ∧ (earn_quickdraw_badge ⟨true, true, false, c, d⟩).cleanupAttempted =
          [Handle.repo])
    ∧ ((earn_yolo_badge ⟨false, a, b, c, d, e, f, g⟩).created = []
       ∧ (earn_yolo_badge ⟨false, a, b, c, d, e, f, g⟩).cleanupAttempted = [])
    ∧ ((earn_yolo_badge ⟨true, false, b, c, d, e, f, g⟩).created = [Handle.repo]
       ∧ (earn_yolo_badge ⟨true, false, b, c, d, e, f, g⟩).cleanupAttempted =
          [Handle.repo])
    ∧ ((earn_yolo_badge ⟨true, true, true, true, true, false, f, g⟩).created =
          [Handle.repo, Handle.branch, Handle.file, Handle.pullRequest]
       ∧ (earn_yolo_badge
            ⟨true, true, true, true, true, false, f, g⟩).cleanupAttempted =
          [Handle.repo])
    ∧ ((earn_quickdraw_badge ⟨a, b, c, d, e⟩).cleanupAttempted.all
          (fun h => h == Handle.repo) = true)
    ∧ ((earn_yolo_badge ⟨a, b, c, d, e, f, g, h2⟩).cleanupAttempted.all
          (fun h => h == Handle.repo) = true) := by
  decide

/-- C6: bucket assignment of the earning plan is total and single-valued over
the progress entries: every badge of the iteration order present in the
progress mapping lands in exactly one bucket — the completed bucket exactly
when its achieved tier is set (regardless of capability class, since the
achieved test comes first), and otherwise the unique bucket given by the
static capability lookup on the badge name; every catalogue badge is covered
by the iteration order. -/
theorem claim_C6 (progress : List (String × Entry)) (n : String) (e : Entry)
    (hn : n ∈ earning_order) (he : progress.lookup n = some e) :
    (∀ b : BucketId,
      (bucketSel (get_earning_plan progress) b).count n =
        if targetBucket n e.achieved_tier.isSome = b then 1 else 0)
    ∧ targetBucket n true = BucketId.completed
    ∧ (∀ m ∈ catalogueOrder, m ∈ earning_order) := by
  refine ⟨?_, rfl, by decide⟩
  intro b
  rw [get_earning_plan_bucket]
  have hpred : bucketPred progress b n =
      decide (targetBucket n e.achieved_tier.isSome = b) := by
    unfold bucketPred
    rw [he]
  by_cases ht : targetBucket n e.achieved_tier.isSome = b
  · rw [if_pos ht]
    have hp : bucketPred progress b n = true := by
      rw [hpred]
      exact decide_eq_true ht
    rw [List.count_filter hp]
    exact List.count_eq_one_of_mem (by decide) hn
  · rw [if_neg ht]
    refine List.count_eq_zero.mpr ?_
    intro hmem
    rw [List.mem_filter, hpred] at hmem
    exact ht (of_decide_eq_true hmem.2)

/-- C6 witness: the theorem applied to a one-entry progress mapping holding a
non-achieved Quickdraw entry. -/
theorem claim_C6_witness :
    ("Quickdraw" ∈ earning_order) ∧
    (([("Quickdraw", (⟨0, none, some ⟨"Default", 1, 1⟩, "", [("Default", 1)],
        none⟩ : Entry))] : List (String × Entry)).lookup "Quickdraw" =
      some ⟨0, none, some ⟨"Default", 1, 1⟩, "", [("Default", 1)], none⟩) ∧
    (∀ b : BucketId,
      (bucketSel (get_earning_plan
          [("Quickdraw", (⟨0, none, some ⟨"Default", 1, 1⟩, "",
            [("Default", 1)], none⟩ : Entry))]) b).count "Quickdraw" =
        if targetBucket "Quickdraw"
            (⟨0, none, some ⟨"Default", 1, 1⟩, "", [("Default", 1)],
              none⟩ : Entry).achieved_tier.isSome = b
        then 1 else 0) :=
  ⟨by decide, by decide,
   (claim_C6 _ "Quickdraw" _ (by decide) (by decide)).1⟩

/-- C7 counterexample: with every count zero (so Pull Shark, Galaxy Brain and
Starstruck are all non-achieved and land in the long-term bucket), the bucket
lists them as Pull Shark, Galaxy Brain, Starstruck — the orchestrator
iteration order — while the catalogue declaration order restricted to the
bucket is Starstruck, Pull Shark, Galaxy Brain; the two differ, refuting the
claim that per-bucket presentation order equals catalogue order. -/
theorem claim_C7_counterexample :
    (get_earning_plan (get_badge_progress (methodEnvOf
        ⟨Except.ok 0, [], none, [], none⟩))).long_term =
      ["Pull Shark", "Galaxy Brain", "Starstruck"]
    ∧ catalogueOrder.filter (fun n =>
        (get_earning_plan (get_badge_progress (methodEnvOf
          ⟨Except.ok 0, [], none, [], none⟩))).long_term.contains n) =
      ["Starstruck", "Pull Shark", "Galaxy Brain"]
    ∧ (get_earning_plan (get_badge_progress (methodEnvOf
        ⟨Except.ok 0, [], none, [], none⟩))).long_term ≠
      catalogueOrder.filter (fun n =>
        (get_earning_plan (get_badge_progress (methodEnvOf
          ⟨Except.ok 0, [], none, [], none⟩))).long_term.contains n) := by
  decide

/-- C7 amended: each bucket of the earning plan lists its badges in the
orchestrator's fixed easiest-to-hardest `earning_order` restricted to the
badges that bucket receives — a stable presentation order for every input
progress list, but it is the planner iteration order, not the catalogue
declaration order. -/
theorem claim_C7_amended (progress : List (String × Entry)) (b : BucketId) :
    bucketSel (get_earning_plan progress) b =
      earning_order.filter (bucketPred progress b) :=
  get_earning_plan_bucket progress b

/-- C8: with every external call succeeding, the fast-close (quickdraw)
workflow performs, in order, repository creation, issue creation, a 30 second
wait, issue closing, repository deletion, and reports success; its derived
state sequence is Idle, Provisioning, Waiting, Finalizing, CleaningUp,
Succeeded, with the container repository (holding all created artifacts)
deleted; the helper that closes an issue in an existing repository waits its
configured delay (30 seconds by default); and the unreviewed-merge workflow
performs no deliberate delay anywhere and also reports success. -/
theorem claim_C8 :
    (earn_quickdraw_badge ⟨true, true, true, true, true⟩).events =
      [WEvent.createRepo, WEvent.createIssue, WEvent.sleep 30,
       WEvent.closeIssue, WEvent.deleteRepo]
    ∧ stateSequence (earn_quickdraw_badge ⟨true, true, true, true, true⟩) =
      [WState.Idle, WState.Provisioning, WState.Waiting, WState.Finalizing,
       WState.CleaningUp, WState.Succeeded]
    ∧ (earn_quickdraw_badge ⟨true, true, true, true, true⟩).result = true
    ∧ (earn_quickdraw_badge ⟨true, true, true, true, true⟩).repoDeleted = true
    ∧ (earn_quickdraw_badge ⟨true, true, true, true, true⟩).created =
      [Handle.repo, Handle.issue]
    ∧ (create_and_close_issue_quickly ⟨true, true, true, true⟩ 30).events =
      [WEvent.getRepo, WEvent.createIssue, WEvent.sleep 30,
       WEvent.createComment, WEvent.closeIssue]
    ∧ (create_and_close_issue_quickly ⟨true, true, true, true⟩ 30).result = true
    ∧ (earn_yolo_badge ⟨true, true, true, true, true, true, true, true⟩).result =
      true
    ∧ (earn_yolo_badge
        ⟨true, true, true, true, true, true, true, true⟩).events.all
        (fun e2 => !isSleepEvent e2) = true := by
  decide

/-- C9: a raised exception inside one metric method does not abort the
others: for any two method environments that agree everywhere except possibly
on one method, the progress report still contains one entry per catalogue
badge in order under both, and every badge whose check method is not the
differing one gets an identical entry. -/
theorem claim_C9 (e1 e2 : String → Except String Nat) (m : String)
    (hagree : ∀ m2, m2 ≠ m → e1 m2 = e2 m2) :
    (get_badge_progress e1).map Prod.fst = badges.map BadgeDef.name
    ∧ (get_badge_progress e2).map Prod.fst = badges.map BadgeDef.name
    ∧ ∀ b ∈ badges, b.check_method ≠ m → entryFor e1 b = entryFor e2 b := by
  refine ⟨by simp [get_badge_progress], by simp [get_badge_progress], ?_⟩
  intro b hb hne
  unfold entryFor
  rw [hagree b.check_method hne]

/-- C9 witness: the theorem applied to the all-zero environment and the
environment in which only the star count raises. -/
theorem claim_C9_witness :
    (∀ m2 : String, m2 ≠ "count_max_stars" →
      (fun _ : String => (Except.ok 0 : Except String Nat)) m2 =
      (fun m3 => if m3 = "count_max_stars" then Except.error "rate limit"
                 else Except.ok 0) m2) ∧
    ((get_badge_progress (fun _ : String => (Except.ok 0 : Except String Nat))).map
        Prod.fst = badges.map BadgeDef.name
     ∧ (get_badge_progress (fun m3 =>
          if m3 = "count_max_stars" then Except.error "rate limit"
          else Except.ok 0)).map Prod.fst = badges.map BadgeDef.name
     ∧ ∀ b ∈ badges, b.check_method ≠ "count_max_stars" →
        entryFor (fun _ : String => (Except.ok 0 : Except String Nat)) b =
        entryFor (fun m3 =>
          if m3 = "count_max_stars" then Except.error "rate limit"
          else Except.ok 0) b) := by
  have h : ∀ m2 : String, m2 ≠ "count_max_stars" →
      (fun _ : String => (Except.ok 0 : Except String Nat)) m2 =
      (fun m3 => if m3 = "count_max_stars" then Except.error "rate limit"
                 else Except.ok 0) m2 := by
    intro m2 hm
    simp [hm]
  exact ⟨h, claim_C9 _ _ _ h⟩

/-- C10: every checker method is total and returns a plain natural number,
never an unknown marker — the five unobservable checks return exactly 0
unconditionally, and the three query-backed counts swallow any collaborator
exception and return the count accumulated before it (0 when nothing was
observed), so a failed or unobservable query is indistinguishable at this
interface from a genuine zero count. -/
theorem claim_C10 :
    (check_quickdraw = 0 ∧ count_coauthored_commits = 0 ∧
     count_discussion_answers = 0 ∧ check_yolo_merges = 0 ∧
     check_sponsorships = 0)
    ∧ (∀ msg, count_merged_prs (Except.error msg) = 0)
    ∧ (∀ n, count_merged_prs (Except.ok n) = n)
    ∧ (∀ prs k, count_repos_with_merged_prs prs (some k) =
        count_repos_with_merged_prs ((prs.take 100).take k) none)
    ∧ (∀ prs, count_repos_with_merged_prs prs (some 0) = 0)
    ∧ (∀ repos k, count_max_stars repos (some k) =
        count_max_stars (repos.take k) none)
    ∧ (∀ repos, count_max_stars repos (some 0) = 0) := by
  refine ⟨⟨rfl, rfl, rfl, rfl, rfl⟩, fun msg => rfl, fun n => rfl,
    ?_, fun prs => rfl, fun repos k => rfl, fun repos => rfl⟩
  intro prs k
  have hu : ((prs.take 100).take k).take 100 = (prs.take 100).take k := by
    rw [List.take_take]
    refine List.take_eq_take.mpr ?_
    have hlen : (prs.take 100).length ≤ 100 := by
      rw [List.length_take]
      omega
    omega
  simp only [count_repos_with_merged_prs]
  rw [hu]
